import Mathlib

/-!
Verification of the desk serial-protocol core (protocol.go, main.go,
mitm.go) against its specification.

The Go functions are shallowly embedded: bytes are `Nat` values < 256 with
arithmetic taken mod 256 where Go byte arithmetic wraps, byte slices are
`List Nat`, Go `error` results are `Option` values over explicit error
types, and the stateful UART packet reader is modelled as a function over
the list of successive UART reads.
-/

/-- Errors produced by the protocol decoders, one constructor per Go error
value of protocol.go; a controller fault (contErr) carries its code, with a
separate constructor for the errors.Join of a fault with errChecksumMismatch. -/
inductive DeskErr where
  | invalidPacketLength
  | noHeight
  | reset
  | extraDot
  | checksumMismatch
  | contFault (code : Nat)
  | contFaultChecksum (code : Nat)
  deriving DecidableEq, Repr

/-- Framing errors of the packet reader (errShortPacket, errLongPacket). -/
inductive FrameErr where
  | shortPacket
  | longPacket
  deriving DecidableEq, Repr

/-- digits is the mapping from wire data to digit characters, the sparse
256-entry `digits` array of protocol.go; unset entries are 0. Values are
ASCII codes: 48..57 are the characters 0..9, 82 is R, 84 is T, 69 is E. -/
def digits (i : Nat) : Nat :=
  if i = 0x3f then 48
  else if i = 0x06 then 49
  else if i = 0x5b then 50
  else if i = 0x4f then 51
  else if i = 0x66 then 52
  else if i = 0x6d then 53
  else if i = 0x7d then 54
  else if i = 0x07 then 55
  else if i = 0x7f then 56
  else if i = 0x6f then 57
  else if i = 0x77 then 82
  else if i = 0x78 then 84
  else if i = 0x79 then 69
  else 0

/-- digit returns the digit associated with the provided byte data, and
whether the decimal point is set for the digit (protocol.go digit).
63 is the ASCII code of the placeholder character. On bytes,
Go's b &^ 0x80 equals b &&& 0x7f. -/
def digit (b : Nat) : Nat × Bool :=
  let d := digits (b &&& 0x7f)
  (if d = 0 then 63 else d, b &&& 0x80 != 0)

/-- newContErr returns the controller error encoded in p, or none if p is
not an error state (protocol.go newContErr). The two-digit code uses Go
byte arithmetic, hence the mod 256; the digit values are always at least
48 so the subtractions do not truncate. -/
def newContErr (p : List Nat) : Option DeskErr :=
  if p.length ≠ 4 ∨ p.getD 0 0 ≠ 0x79 then none
  else
    let h := (digit (p.getD 1 0)).1
    let l := (digit (p.getD 2 0)).1
    let code := (10 * (h - 48) + (l - 48)) % 256
    if (p.getD 0 0 + p.getD 1 0 + p.getD 2 0) % 256 ≠ p.getD 3 0 then
      some (.contFaultChecksum code)
    else
      some (.contFault code)

/-- press is the button symbol table of protocol.go key, the string
m1234ud as a character list. -/
def press : List Char := ['m', '1', '2', '3', '4', 'u', 'd']

/-- keyPressed is the selection loop of protocol.go key: collect the
symbols whose bit in b is set, in table order, starting at bit i. -/
def keyPressed (b : Nat) : List Char → Nat → List Char
  | [], _ => []
  | c :: cs, i =>
    if b &&& (1 <<< i) ≠ 0 then c :: keyPressed b cs (i + 1)
    else keyPressed b cs (i + 1)

/-- key returns the set of buttons that are marked as pressed in the
provided packet (protocol.go key); an error comes with the empty string,
as in the Go early returns. -/
def key (p : List Nat) : String × Option DeskErr :=
  if p.length ≠ 4 then ("", some .invalidPacketLength)
  else
    let check := (p.take 3).foldl (fun a b => (a + b) % 256) 0
    if check ≠ p.getD 3 0 then ("", some .checksumMismatch)
    else
      let sel := keyPressed (p.getD 1 0) press 0
      if sel = [] then ("_", none) else (String.mk sel, none)

/-- position is a desk height position (protocol.go position). The Go
fields are int; the exponent can be negative. -/
structure position where
  mantissa : Int
  exponent : Int
  deriving DecidableEq, Repr

/-- heightScan is the digit loop of protocol.go height over the three
payload bytes with index i: it accumulates the byte checksum, the base-10
mantissa and the decimal-point index dot (initially 2); none models the
early errExtraDot return on a second decimal point. -/
def heightScan : List Nat → Nat → Nat → Nat → Nat → Option (Nat × Nat × Nat)
  | [], _, check, mant, dot => some (check, mant, dot)
  | b :: rest, i, check, mant, dot =>
    let check' := (check + b) % 256
    let d := (digit b).1
    if (digit b).2 then
      if dot ≠ 2 then none
      else heightScan rest (i + 1) check' (10 * mant + (d - 48)) i
    else heightScan rest (i + 1) check' (10 * mant + (d - 48)) dot

/-- height returns the position for the height encoded in p
(protocol.go height). -/
def height (p : List Nat) : position × Option DeskErr :=
  if p.length ≠ 4 then (⟨0, 0⟩, some .invalidPacketLength)
  else if p = [0, 0, 0, 0] then (⟨0, 0⟩, some .noHeight)
  else if p = [0x77, 0x6d, 0x78, 0x5c] then (⟨0, 0⟩, some .reset)
  else
    match newContErr p with
    | some e => (⟨0, 0⟩, some e)
    | none =>
      match heightScan (p.take 3) 0 0 0 2 with
      | none => (⟨0, 0⟩, some .extraDot)
      | some (check, mant, dot) =>
        if check ≠ p.getD 3 0 then (⟨mant, (dot : Int) - 2⟩, some .checksumMismatch)
        else (⟨mant, (dot : Int) - 2⟩, none)

/-- String renders a position (protocol.go position.String). The Go loop
computing d multiplies 1 by 10, -exponent times. -/
def position.String (p : position) : String :=
  if p.exponent = 0 then toString p.mantissa
  else if p.exponent < 0 then
    let d : Int := 10 ^ (-p.exponent).toNat
    toString (p.mantissa / d) ++ "." ++ toString (p.mantissa % d)
  else toString p.mantissa ++ String.mk (List.replicate p.exponent.toNat '0')

/-- indexOfByte models bytes.IndexByte: the first index of d in l, or none
when d does not occur. -/
def indexOfByte (l : List Nat) (d : Nat) : Option Nat :=
  match l with
  | [] => none
  | b :: rest => if b = d then some 0 else (indexOfByte rest d).map (· + 1)

/-- nextPacket fills a packet with an n-packet from src and returns the
packet, the remaining data and any framing error (protocol.go nextPacket).
The Go nil packet of the underfull case is none. -/
def nextPacket (src : List Nat) (delim n : Nat) :
    Option (List Nat) × List Nat × Option FrameErr :=
  if src.length < n then (none, src, none)
  else
    let next :=
      match indexOfByte (src.drop 1) delim with
      | none => src.length
      | some i => i + 1
    if n < next then
      let check := (src.take (n - 1)).foldl (fun a b => (a + b) % 256) 0
      if check ≠ src.getD (n - 1) 0 then (some (src.take n), [], some .longPacket)
      else (some (src.take n), [], none)
    else
      (some (src.take next), src.drop next,
        if next < n then some .shortPacket else none)

/-- runReader models one uartReader.packet call (protocol.go packet) over a
finite list of successive UART reads (each Go read yields at most 16 bytes;
the model allows any chunk). read is the accumulation buffer r.read. A none
result means the given reads were exhausted without a packet being returned:
the Go loop would continue polling for more bytes. -/
def runReader (start n : Nat) (read : List Nat) :
    List (List Nat) → Option (Option (List Nat) × Option FrameErr)
  | [] => none
  | chunk :: rest =>
    if chunk = [] then runReader start n read rest
    else
      let read' :=
        if (read = [] ∧ chunk.head? = some start) ∨ read ≠ [] then read ++ chunk
        else read
      if read'.length < n then runReader start n read' rest
      else
        let r := nextPacket read' start n
        some (r.1, r.2.2)

/-- moveToFrame is the command-frame construction shared by the /move_to/
HTTP handler (main.go mitm.server) and the bluetooth moveTo WriteEvent:
slot values outside 1..4 are rejected, returning before any frame is
written to the controller bus (none); otherwise the frame
0xA5 00 (1 shifted left by slot) (0xFF minus that byte) 0xFF is built. -/
def moveToFrame (h : Int) : Option (List Nat) :=
  if h < 1 ∨ 4 < h then none
  else
    let b := (1 <<< h.toNat) % 256
    some [0xa5, 0x00, b, (0xff - b) % 256, 0xff]

/-- keepAlivePkt is the fixed keep-alive frame of mitm.keepAlive; the
source comments that the packet is an Up+Down button press. -/
def keepAlivePkt : List Nat := [0xa5, 0x00, 0x60, 0x9f, 0xff]

/-- chordOf is the specification's button bit layout: bit i of the second
frame byte maps to the symbol m,1,2,3,4,u,d for i = 0..6; the set bits are
concatenated in that fixed symbol order, and no set bit yields the
distinguished no-button symbol. -/
def chordOf (b : Nat) : String :=
  let sel := [(0, 'm'), (1, '1'), (2, '2'), (3, '3'), (4, '4'), (5, 'u'), (6, 'd')].filterMap
    (fun ic => if b.testBit ic.1 then some ic.2 else none)
  if sel = [] then "_" else String.mk sel

/-- digitsPos is the best-effort position decoded from the three digit
bytes alone, ignoring the checksum: the digit loop of height. -/
def digitsPos (b0 b1 b2 : Nat) : position :=
  match heightScan [b0, b1, b2] 0 0 0 2 with
  | none => ⟨0, 0⟩
  | some (_, mant, dot) => ⟨mant, (dot : Int) - 2⟩

/-- C9: the fixed keep-alive frame of the Keep-Alive Task decodes, through
key on its trailing 4 bytes, to exactly the up+down chord with no error, so
in particular its checksum is valid (the fold over the payload equals the
checksum byte). -/
theorem c9_keepalive_up_down :
    key (keepAlivePkt.drop 1) = ("ud", none) ∧
    ((keepAlivePkt.drop 1).take 3).foldl (fun a b => (a + b) % 256) 0 =
      (keepAlivePkt.drop 1).getD 3 0 := by decide

/-- C4 counterexample: on the input 0x79 0x06 0x06 with its valid checksum
0x85, height yields a controller fault with code 11, not 0: 0x06 is the
digit pattern for the character 1 (ASCII 49), not for 0. -/
theorem c4_counterexample :
    height [0x79, 0x06, 0x06, 0x85] = (⟨0, 0⟩, some (.contFault 11)) ∧
    (0x79 + 0x06 + 0x06) % 256 = 0x85 ∧ (11 : Nat) ≠ 0 := by decide

/-- C4 (amended): height applied to the 4-byte input 0x79 0x06 0x06 followed
by any checksum byte yields a ControllerFault with fault code 11 (0x06 is
the digit pattern for 1), joined with a checksum mismatch exactly when the
checksum byte differs from the payload sum mod 256. -/
theorem c4_fault_code (ck : Nat) :
    height [0x79, 0x06, 0x06, ck] =
      (⟨0, 0⟩, some (if (0x79 + 0x06 + 0x06) % 256 = ck then DeskErr.contFault 11
        else DeskErr.contFaultChecksum 11)) := by
  by_cases h : (0x79 + 0x06 + 0x06) % 256 = ck
  · subst h; decide
  · simp [height, newContErr, digit, digits, h]
    decide

/-- C4 witness: the amended theorem instantiated at the valid checksum. -/
theorem c4_fault_code_witness :
    height [0x79, 0x06, 0x06, 0x85] = (⟨0, 0⟩, some (DeskErr.contFault 11)) := by
  rw [c4_fault_code 0x85]; decide

/-- C6 counterexample: 0x80 is unmapped in the digit table after masking,
yet digit reports the decimal-point flag for it, refuting the claim that
unmapped bytes report no flag. -/
theorem c6_counterexample :
    digits (0x80 &&& 0x7f) = 0 ∧ digit 0x80 ≠ (63, false) ∧ digit 0x80 = (63, true) := by
  decide

/-- C6 (amended): for every byte value unmapped in the digit table after
masking off the 0x80 bit, digit decodes it to the placeholder digit
(ASCII 63), and reports the decimal-point flag exactly when the 0x80 bit is
set — also for unmapped bytes. -/
theorem c6_unmapped_placeholder (b : Nat) (h : digits (b &&& 0x7f) = 0) :
    digit b = (63, b &&& 0x80 != 0) := by
  simp [digit, h]

/-- C6 witness: the amended theorem at the unmapped byte 0x80. -/
theorem c6_unmapped_placeholder_witness :
    digits (0x80 &&& 0x7f) = 0 ∧ digit 0x80 = (63, true) :=
  ⟨by decide, by rw [c6_unmapped_placeholder 0x80 (by decide)]; decide⟩

/-- C2 counterexample: a stream of one corrupted lead byte 0x00 followed by
the valid frame 0xA5 00 00 00 00 (payload sum 0 equals the checksum), all
delivered in a single read, is never returned: the reader discards the
whole read because its first byte is not the start byte, and yields no
packet. -/
theorem c2_counterexample :
    (0x00 : Nat) ≠ 0xa5 ∧ (0x00 + 0x00 + 0x00) % 256 = 0x00 ∧
    runReader 0xa5 5 [] [[0x00, 0xa5, 0x00, 0x00, 0x00, 0x00]] = none := by decide

set_option maxRecDepth 4096 in
/-- The selection loop of key agrees with the specification's bit layout on
every byte value, and the no-button symbol makes the result never empty. -/
lemma keyPressed_eq_chordOf : ∀ b : Nat, b < 256 →
    ((if keyPressed b press 0 = [] then "_" else String.mk (keyPressed b press 0)) = chordOf b ∧
      chordOf b ≠ "") := by decide

/-- key on a 4-byte packet with a valid checksum reduces to the selection
loop over the second byte. -/
lemma key_checksum_ok (p0 p1 p2 : Nat) :
    key [p0, p1, p2, (p0 + p1 + p2) % 256] =
      (if keyPressed p1 press 0 = [] then "_" else String.mk (keyPressed p1 press 0), none) := by
  have hck : ((p0 % 256 + p1) % 256 + p2) % 256 = (p0 + p1 + p2) % 256 := by omega
  simp [key, hck]
  by_cases hsel : keyPressed p1 press 0 = [] <;> simp [hsel]

/-- C5: for every 4-byte packet with a valid checksum, key maps bit i of
the second byte (i = 0..6) to the symbols m,1,2,3,4,u,d respectively,
concatenating set bits in that fixed symbol order (chordOf), and decodes
the payload with no set bits to the distinguished no-button symbol, never
the empty string. -/
theorem c5_button_bits (p0 p1 p2 : Nat) (_h0 : p0 < 256) (h1 : p1 < 256) (_h2 : p2 < 256) :
    key [p0, p1, p2, (p0 + p1 + p2) % 256] = (chordOf p1, none) ∧ chordOf p1 ≠ "" := by
  have hb := keyPressed_eq_chordOf p1 h1
  refine ⟨?_, hb.2⟩
  rw [key_checksum_ok, ← hb.1]

/-- C5 witness: the up+down chord and the empty press. -/
theorem c5_button_bits_witness :
    key [0, 0x60, 0, (0 + 0x60 + 0) % 256] = ("ud", none) ∧
    key [0, 0, 0, (0 + 0 + 0) % 256] = ("_", none) := by
  constructor
  · rw [(c5_button_bits 0 0x60 0 (by decide) (by decide) (by decide)).1]
    decide
  · rw [(c5_button_bits 0 0 0 (by decide) (by decide) (by decide)).1]
    decide

/-- An index found by indexOfByte is within the list. -/
lemma indexOfByte_lt_length {l : List Nat} {d i : Nat} (h : indexOfByte l d = some i) :
    i < l.length := by
  induction l generalizing i with
  | nil => simp [indexOfByte] at h
  | cons b rest ih =>
    by_cases hb : b = d
    · simp [indexOfByte, hb] at h
      simp only [List.length_cons]
      omega
    · simp [indexOfByte, hb] at h
      obtain ⟨j, hj, hji⟩ := h
      have := ih hj
      simp only [List.length_cons]
      omega

/-- C3: whenever the next occurrence of the start byte, searching from the
second byte, lies strictly beyond the frame length n, nextPacket truncates
the candidate to exactly n bytes, verifies the checksum over the first n-1
bytes, reports the long-packet error exactly when that checksum fails, and
discards all remaining buffered bytes, carrying no remainder. -/
theorem c3_long_candidate (src : List Nat) (delim n i : Nat)
    (hidx : indexOfByte (src.drop 1) delim = some i) (hn : n < i + 1) :
    nextPacket src delim n =
      (some (src.take n), [],
        if (src.take (n - 1)).foldl (fun a b => (a + b) % 256) 0 = src.getD (n - 1) 0
        then none else some .longPacket) := by
  have hlen : i < (src.drop 1).length := indexOfByte_lt_length hidx
  have hsrc : ¬ src.length < n := by
    simp only [List.length_drop] at hlen
    omega
  simp only [nextPacket, hsrc, if_false, hidx]
  rw [if_pos hn]
  by_cases hck : (src.take (n - 1)).foldl (fun a b => (a + b) % 256) 0 = src.getD (n - 1) 0
  · rw [if_neg (by simpa using hck), if_pos hck]
  · rw [if_pos (by simpa using hck), if_neg hck]

/-- C3 witness: a 7-byte buffer whose second start byte is at index 6;
the truncated candidate fails the header-inclusive checksum, so the
long-packet error is reported and the remainder is empty. -/
theorem c3_long_candidate_witness :
    indexOfByte ([0xa5, 1, 2, 3, 4, 5, 0xa5].drop 1) 0xa5 = some 5 ∧
    nextPacket [0xa5, 1, 2, 3, 4, 5, 0xa5] 0xa5 5 =
      (some [0xa5, 1, 2, 3, 4], [], some .longPacket) := by
  refine ⟨by decide, ?_⟩
  rw [c3_long_candidate [0xa5, 1, 2, 3, 4, 5, 0xa5] 0xa5 5 5 (by decide) (by decide)]
  decide

/-- C7: for every 4-byte display input whose first byte is not the fault
header 0x79 (the all-zero and reset patterns are impossible here since
their bytes have no 0x80 bit) and in which two or more of the three digit
bytes carry the decimal-point flag bit 0x80, height returns the
duplicate-decimal-point format error and discards the decoded value,
returning the zero position. -/
theorem c7_duplicate_dot (b0 b1 b2 ck : Nat) (hb0 : b0 ≠ 0x79)
    (hfl : b0 &&& 0x80 ≠ 0 ∧ b1 &&& 0x80 ≠ 0 ∨
      b0 &&& 0x80 ≠ 0 ∧ b2 &&& 0x80 ≠ 0 ∨
      b1 &&& 0x80 ≠ 0 ∧ b2 &&& 0x80 ≠ 0) :
    height [b0, b1, b2, ck] = (⟨0, 0⟩, some .extraDot) := by
  have hz : ¬ (b0 = 0 ∧ b1 = 0 ∧ b2 = 0 ∧ ck = 0) := by
    rintro ⟨rfl, rfl, rfl, rfl⟩
    rcases hfl with ⟨h, _⟩ | ⟨h, _⟩ | ⟨h, _⟩ <;> exact h (by decide)
  have hr : ¬ (b0 = 0x77 ∧ b1 = 0x6d ∧ b2 = 0x78 ∧ ck = 0x5c) := by
    rintro ⟨rfl, rfl, rfl, rfl⟩
    rcases hfl with ⟨h, _⟩ | ⟨h, _⟩ | ⟨h, _⟩ <;> exact h (by decide)
  rcases hfl with ⟨h0, h1⟩ | ⟨h0, h2⟩ | ⟨h1, h2⟩
  · simp [height, hz, hr, newContErr, hb0, heightScan, digit, h0, h1]
  · by_cases hm : b1 &&& 0x80 = 0 <;>
      simp [height, hz, hr, newContErr, hb0, heightScan, digit, h0, h2, hm]
  · by_cases hm : b0 &&& 0x80 = 0 <;>
      simp [height, hz, hr, newContErr, hb0, heightScan, digit, h1, h2, hm]

/-- C7 witness: two flagged bytes among the digit bytes yield the format
error and the zero position. -/
theorem c7_duplicate_dot_witness :
    height [0x80, 0x80, 0, 0] = (⟨0, 0⟩, some .extraDot) :=
  c7_duplicate_dot 0x80 0x80 0 0 (by decide) (Or.inl ⟨by decide, by decide⟩)

/-- C1 counterexample: the input 0x00 0x01 0x00 0x00 has a checksum
mismatch, and its payload bits best-effort decode to the memory button, yet
key returns the empty string with the error rather than the best-effort
button set. -/
theorem c1_counterexample :
    (0 + 1 + 0) % 256 ≠ 0 ∧
    key [0, 1, 0, 0] = ("", some .checksumMismatch) ∧
    chordOf 1 = "m" ∧ ("" : String) ≠ "m" := by decide

/-- C1 (amended): on a 4-byte input whose checksum byte differs from the
payload sum mod 256, key returns the checksum-mismatch error with the
empty string, discarding the button decode entirely; height, provided the
first byte is not the fault header 0x79 and at most one digit byte carries
the 0x80 decimal-point flag, returns the checksum-mismatch error paired
with the best-effort position decoded from the digit bytes (the all-zero
and reset patterns are impossible: both have valid checksums). -/
theorem c1_checksum_mismatch :
    (∀ p0 p1 p2 ck : Nat, (p0 + p1 + p2) % 256 ≠ ck →
      key [p0, p1, p2, ck] = ("", some .checksumMismatch)) ∧
    (∀ b0 b1 b2 ck : Nat, (b0 + b1 + b2) % 256 ≠ ck → b0 ≠ 0x79 →
      (b1 &&& 0x80 = 0 ∧ b2 &&& 0x80 = 0 ∨
        b0 &&& 0x80 = 0 ∧ b2 &&& 0x80 = 0 ∨
        b0 &&& 0x80 = 0 ∧ b1 &&& 0x80 = 0) →
      height [b0, b1, b2, ck] = (digitsPos b0 b1 b2, some .checksumMismatch)) := by
  constructor
  · intro p0 p1 p2 ck h
    simp [key, h]
  · intro b0 b1 b2 ck hmis hb0 hfl
    have hz : ¬ (b0 = 0 ∧ b1 = 0 ∧ b2 = 0 ∧ ck = 0) := by
      rintro ⟨rfl, rfl, rfl, rfl⟩
      exact hmis rfl
    have hr : ¬ (b0 = 0x77 ∧ b1 = 0x6d ∧ b2 = 0x78 ∧ ck = 0x5c) := by
      rintro ⟨rfl, rfl, rfl, rfl⟩
      exact hmis (by decide)
    rcases hfl with ⟨h1, h2⟩ | ⟨h0, h2⟩ | ⟨h0, h1⟩
    · by_cases hm : b0 &&& 0x80 = 0 <;>
        simp [height, hz, hr, newContErr, hb0, heightScan, digitsPos, digit, h1, h2, hm, hmis]
    · by_cases hm : b1 &&& 0x80 = 0 <;>
        simp [height, hz, hr, newContErr, hb0, heightScan, digitsPos, digit, h0, h2, hm, hmis]
    · by_cases hm : b2 &&& 0x80 = 0 <;>
        simp [height, hz, hr, newContErr, hb0, heightScan, digitsPos, digit, h0, h1, hm, hmis]

/-- C1 witness: key discards the decode on the mismatching input
0x00 0x01 0x00 0x00; height on the mismatching input 0x06 0x06 0x06 0x00
returns the best-effort position 111 with exponent 0 alongside the error. -/
theorem c1_checksum_mismatch_witness :
    key [0, 1, 0, 0] = ("", some .checksumMismatch) ∧
    height [6, 6, 6, 0] = (⟨111, 0⟩, some .checksumMismatch) := by
  constructor
  · exact c1_checksum_mismatch.1 0 1 0 0 (by decide)
  · rw [c1_checksum_mismatch.2 6 6 6 0 (by decide) (by decide)
      (Or.inl ⟨by decide, by decide⟩)]
    decide

/-- nextPacket returns a 5-byte frame whole, with no error and nothing
left over, when the frame holds no further occurrence of the start byte. -/
lemma nextPacket_whole_frame (s b1 b2 b3 b4 : Nat)
    (h1 : b1 ≠ s) (h2 : b2 ≠ s) (h3 : b3 ≠ s) (h4 : b4 ≠ s) :
    nextPacket [s, b1, b2, b3, b4] s 5 = (some [s, b1, b2, b3, b4], [], none) := by
  simp [nextPacket, indexOfByte, h1, h2, h3, h4]

/-- Once the accumulation buffer holds a nonempty part of the frame, the
reader appends every further read and returns the frame when it completes. -/
lemma runReader_accumulates (s b1 b2 b3 b4 : Nat)
    (h1 : b1 ≠ s) (h2 : b2 ≠ s) (h3 : b3 ≠ s) (h4 : b4 ≠ s) :
    ∀ (chunks : List (List Nat)) (read : List Nat),
      read ++ chunks.flatten = [s, b1, b2, b3, b4] →
      read.length < 5 →
      runReader s 5 read chunks = some (some [s, b1, b2, b3, b4], none) := by
  intro chunks
  induction chunks with
  | nil =>
    intro read hcat hlen
    simp only [List.flatten_nil, List.append_nil] at hcat
    subst hcat
    simp at hlen
  | cons ch rest ih =>
    intro read hcat hlen
    have hcat' : (read ++ ch) ++ rest.flatten = [s, b1, b2, b3, b4] := by
      simpa [List.append_assoc] using hcat
    by_cases hch : ch = []
    · subst hch
      rw [runReader]
      simp only [if_pos rfl]
      exact ih read (by simpa using hcat) hlen
    · have hcond : (read = [] ∧ ch.head? = some s) ∨ read ≠ [] := by
        by_cases hr : read = []
        · subst hr
          left
          refine ⟨rfl, ?_⟩
          simp only [List.nil_append] at hcat'
          cases ch with
          | nil => exact absurd rfl hch
          | cons x t =>
            simp only [List.cons_append, List.cons.injEq] at hcat'
            simp [hcat'.1]
        · exact Or.inr hr
      rw [runReader]
      rw [if_neg hch, if_pos hcond]
      by_cases hlt : (read ++ ch).length < 5
      · rw [if_pos hlt]
        exact ih (read ++ ch) hcat' hlt
      · rw [if_neg hlt]
        have hlen5 : (read ++ ch).length + rest.flatten.length = 5 := by
          have h := congrArg List.length hcat'
          simp [List.length_append, List.length_flatten] at h ⊢
          omega
        have hrc : (read ++ ch).length = 5 := by omega
        have hrest : rest.flatten = [] := by
          have : rest.flatten.length = 0 := by omega
          exact List.eq_nil_of_length_eq_zero this
        have hfr : read ++ ch = [s, b1, b2, b3, b4] := by
          simpa [hrest] using hcat'
        rw [hfr, nextPacket_whole_frame s b1 b2 b3 b4 h1 h2 h3 h4]

/-- C2 (amended): for a byte stream of one corrupted (non-start) leading
byte followed by a complete valid 5-byte frame whose later bytes do not
repeat the start byte, chunked so that the corrupted byte occupies the
first read on its own, the reader discards the corrupted lead and returns
the valid frame with no error, for every chunking of the frame across the
subsequent reads. -/
theorem c2_resync (s c b1 b2 b3 b4 : Nat) (chunks : List (List Nat))
    (hc : c ≠ s) (h1 : b1 ≠ s) (h2 : b2 ≠ s) (h3 : b3 ≠ s) (h4 : b4 ≠ s)
    (_hsum : (b1 + b2 + b3) % 256 = b4)
    (hfl : chunks.flatten = [s, b1, b2, b3, b4]) :
    runReader s 5 [] ([c] :: chunks) = some (some [s, b1, b2, b3, b4], none) := by
  rw [runReader]
  have hcne : ([c] : List Nat) ≠ [] := by simp
  have hcond : ¬ ((([] : List Nat) = [] ∧ ([c] : List Nat).head? = some s) ∨
      ([] : List Nat) ≠ []) := by
    simp [hc]
  rw [if_neg hcne, if_neg hcond]
  simp only [List.length_nil, if_pos (by omega : (0 : Nat) < 5)]
  exact runReader_accumulates s b1 b2 b3 b4 h1 h2 h3 h4 chunks []
    (by simpa using hfl) (by simp)

/-- C2 witness: the corrupted byte 0x00 in its own read, then the valid
frame 0xA5 01 02 03 06 split across two reads, is resynchronized. -/
theorem c2_resync_witness :
    runReader 0xa5 5 [] [[0x00], [0xa5, 1], [2, 3, 6]] =
      some (some [0xa5, 1, 2, 3, 6], none) :=
  c2_resync 0xa5 0 1 2 3 6 [[0xa5, 1], [2, 3, 6]] (by decide) (by decide) (by decide)
    (by decide) (by decide) (by decide) (by decide)

/-- C8: for every slot value in 1..4 the external command path builds
exactly the frame 0xA5 00 (1 shifted left by slot) (0xFF minus that byte)
0xFF, whose three payload bytes sum to 0xFF so the checksum rule holds;
for every slot value outside 1..4 the command is rejected and no frame is
produced for the controller bus. -/
theorem c8_move_to (h : Int) :
    ((1 ≤ h ∧ h ≤ 4) →
      moveToFrame h =
        some [0xa5, 0x00, (1 <<< h.toNat) % 256, (0xff - (1 <<< h.toNat) % 256) % 256, 0xff] ∧
      (0x00 + (1 <<< h.toNat) % 256 + (0xff - (1 <<< h.toNat) % 256) % 256) % 256 = 0xff) ∧
    ((h < 1 ∨ 4 < h) → moveToFrame h = none) := by
  constructor
  · rintro ⟨ha, hb⟩
    interval_cases h <;> exact ⟨by decide, by decide⟩
  · intro hout
    unfold moveToFrame
    rw [if_pos hout]

/-- C8 witness: slot 2 yields the frame 0xA5 00 04 FB FF with a valid
checksum; slot 7 is rejected. -/
theorem c8_move_to_witness :
    moveToFrame 2 = some [0xa5, 0x00, 0x04, 0xfb, 0xff] ∧ moveToFrame 7 = none := by
  constructor
  · rw [((c8_move_to 2).1 ⟨by decide, by decide⟩).1]
    decide
  · exact (c8_move_to 7).2 (Or.inr (by decide))

/-- C10: for every position with a strictly negative exponent e and a
mantissa m of at least 10 to the power -e, the String rendering is the
decimal string of m divided by 10 to the -e, a dot, then the decimal
string of m mod 10 to the -e with no leading-zero padding of the
fractional part. -/
theorem c10_render_negative_exponent (m e : Int) (he : e < 0)
    (_hm : (10 : Int) ^ (-e).toNat ≤ m) :
    position.String ⟨m, e⟩ =
      toString (m / 10 ^ (-e).toNat) ++ "." ++ toString (m % 10 ^ (-e).toNat) := by
  have hne : e ≠ 0 := by omega
  simp [position.String, hne, he]

/-- C10 witness: mantissa 105 with exponent -2 renders as 1.5, not 1.05:
105 mod 100 is 5 and its decimal string carries no padding zero. -/
theorem c10_render_negative_exponent_witness :
    position.String ⟨105, -2⟩ = "1.5" ∧ position.String ⟨105, -2⟩ ≠ "1.05" := by
  rw [c10_render_negative_exponent 105 (-2) (by decide) (by decide)]
  constructor <;> decide
